import Mathlib

/-!
Verification of the elasticsearch_exporter collection pipeline.

Shallow embedding of the Go sources (metric.go, query.go, the aggregation
handlers, the collector/caching-collector and the target) into Lean.
float64 values are modelled as exact rationals (ℚ); the claims under study
are about the formulas and data flow, not about rounding.  Channels are
modelled by the list of values sent on them, in send order.
-/

namespace ElasticExporter

/-- labelPair from metric.go: an intermediate (key, value) label. -/
structure labelPair where
  key : String
  value : String
deriving DecidableEq, Repr

/-- dto.LabelPair: the wire-format label pair (GetName/GetValue). -/
structure DtoLabelPair where
  name : String
  value : String
deriving DecidableEq, Repr

/-- Modelled from the spec: MetricDatum `(value: float64, label: optional
LabelPair)` (§3).  The Go file defining `metricData` is not among the
sources; its shape is fixed by the spec and by its uses in metric.go
(`d.value`, `d.hasLabels()`, `d.labelPair`) and in the handlers. -/
structure metricData where
  value : ℚ
  labelPair : Option labelPair
deriving DecidableEq, Repr

/-- `metricData.hasLabels` from its uses in metric.go: the datum carries a
(non-nil) label pointer. -/
def metricData.hasLabels (d : metricData) : Bool :=
  d.labelPair.isSome

/-- Modelled from the spec: constructor of an unlabeled MetricDatum, used by
the single-value handler as `newMetricData(value)`. -/
def newMetricData (value : ℚ) : metricData :=
  { value := value, labelPair := none }

/-- Modelled from the spec: constructor of a labeled MetricDatum, used by the
handlers as `newLabeledMetricData(value, key, labelValue)`. -/
def newLabeledMetricData (value : ℚ) (key : String) (labelValue : String) : metricData :=
  { value := value, labelPair := some { key := key, value := labelValue } }

/-!
## Aggregation handlers (aggregation handlers source file)

`gjson.Result` access is modelled by the fields each handler reads from the
aggregation payload: a terms result is its `buckets` array of
`{key, doc_count}`, a single-value result its scalar `value`, a stats result
its `count/min/max/avg/sum` scalars.
-/

/-- One `{key, doc_count}` bucket of a terms aggregation result. -/
structure TermsBucket where
  key : String
  doc_count : ℚ
deriving DecidableEq, Repr

/-- The `count/min/max/avg/sum` fields of a stats aggregation result. -/
structure StatsResult where
  count : ℚ
  min : ℚ
  max : ℚ
  avg : ℚ
  sum : ℚ
deriving DecidableEq, Repr

/-- config.AggregationType: the configured aggregation kind.  `other`
covers every kind outside the switch (the `default` arm). -/
inductive AggregationType where
  | terms
  | stats
  | max
  | min
  | sum
  | avg
  | cardinality
  | other (s : String)
deriving DecidableEq, Repr

/-- The concrete handler variants instantiated by `NewForType`. -/
inductive AggregationHandler where
  | termsHandler (name : String)
  | statsHandler
  | singleValueHandler
deriving DecidableEq, Repr

/-- `NewForType` from the aggregation handlers file.  In Go,
`var handler AggregationHandler` starts out nil and a `case` with an empty
body does not fall through, so the cases for max, min, sum and avg leave
`handler` nil and the function returns `(nil, nil)`; only the cardinality
case assigns the SingleValue handler.  The nil-handler return is modelled
as `.ok none`. -/
def NewForType (aggType : AggregationType) (name : String) :
    Except String (Option AggregationHandler) :=
  match aggType with
  | .terms => .ok (some (.termsHandler name))
  | .stats => .ok (some .statsHandler)
  | .max => .ok none
  | .min => .ok none
  | .sum => .ok none
  | .avg => .ok none
  | .cardinality => .ok (some .singleValueHandler)
  | .other s => .error ("handler for " ++ s ++ " not implemented")

/-- `TermsAggregationHandler.Handle`: loops over `result.Get("buckets")`
appending one labeled datum per bucket, labeled with the handler's
configured name and the bucket's key, value the bucket's doc_count. -/
def TermsAggregationHandler.Handle (name : String) (buckets : List TermsBucket)
    (metricsData : List metricData) : List metricData :=
  buckets.foldl
    (fun acc data => acc ++ [newLabeledMetricData data.doc_count name data.key])
    metricsData

/-- `SingleValueAggregationHandler.Handle`: appends one unlabeled datum with
the result's scalar `value`. -/
def SingleValueAggregationHandler.Handle (value : ℚ)
    (metricsData : List metricData) : List metricData :=
  metricsData ++ [newMetricData value]

/-- `StatsAggregationHandler.Handle`: appends the five stats fields in order
count, min, max, avg, sum, each labeled ("stat", field name). -/
def StatsAggregationHandler.Handle (result : StatsResult)
    (metricsData : List metricData) : List metricData :=
  let md1 := metricsData ++ [newLabeledMetricData result.count "stat" "count"]
  let md2 := md1 ++ [newLabeledMetricData result.min "stat" "min"]
  let md3 := md2 ++ [newLabeledMetricData result.max "stat" "max"]
  let md4 := md3 ++ [newLabeledMetricData result.avg "stat" "avg"]
  md4 ++ [newLabeledMetricData result.sum "stat" "sum"]

/-- The append-one-per-bucket loop of the terms handler is an append of a
map over the buckets. -/
theorem termsHandle_eq_append_map (name : String) (buckets : List TermsBucket)
    (acc : List metricData) :
    TermsAggregationHandler.Handle name buckets acc =
      acc ++ buckets.map (fun b => newLabeledMetricData b.doc_count name b.key) := by
  induction buckets generalizing acc with
  | nil => simp [TermsAggregationHandler.Handle]
  | cons b bs ih =>
      simp [TermsAggregationHandler.Handle] at ih ⊢
      rw [ih]
      simp

/-!
## Label sorting and Sample construction (metric.go)

`sort.Sort(labelPairSorter(...))` sorts by `GetName() <`; it is modelled by
insertion sort on the key order, a deterministic comparison sort.
-/

/-- The sort order of `labelPairSorter.Less`: compare pairs by name. -/
def pairLE (a b : DtoLabelPair) : Prop :=
  a.name ≤ b.name

instance : DecidableRel pairLE := fun a b =>
  inferInstanceAs (Decidable (a.name ≤ b.name))

instance : IsTotal DtoLabelPair pairLE :=
  ⟨fun a b => le_total a.name b.name⟩

instance : IsTrans DtoLabelPair pairLE :=
  ⟨fun _ _ _ hab hbc => le_trans hab hbc⟩

/-- `sort.Sort(labelPairSorter(pairs))` modelled as a comparison sort on the
name order. -/
def sortLabelPairs (pairs : List DtoLabelPair) : List DtoLabelPair :=
  List.insertionSort pairLE pairs

/-- `makeLabelPairs` from metric.go: merge the per-sample label values with
the descriptor's constant labels and sort by key; the fast paths return nil
or the constant labels untouched. -/
def makeLabelPairs (constLabels : List DtoLabelPair) (labelValues : List labelPair) :
    List DtoLabelPair :=
  if labelValues.length + constLabels.length = 0 then
    []
  else if labelValues.length = 0 then
    constLabels
  else
    sortLabelPairs
      ((labelValues.map fun l => { name := l.key, value := l.value }) ++ constLabels)

/-- A Metric as written to the output channel: either a constMetric (the
descriptor's name, a fixed value and the merged label pairs) or an
invalidMetric carrying only an error. -/
inductive MetricS where
  | constMetric (descName : String) (value : ℚ) (labels : List DtoLabelPair)
  | invalidMetric (err : String)
deriving DecidableEq, Repr

/-!
## Configuration objects (consumed, opaque in the source tree)

Only the fields the embedded functions read are modelled.
-/

/-- config.ValueType: the configured value-transform of a metric. -/
inductive ValueTypeConf where
  | percentage
  | absolute
deriving DecidableEq, Repr

/-- The aggregation section of a metric config (`Aggregation()`), nil-able;
only its `Name` is read by the embedded code. -/
structure AggregationConfig where
  name : String
deriving DecidableEq, Repr

/-- The fields of config.MetricConfig read by metric.go. -/
structure MetricConfig where
  name : String
  valueType : ValueTypeConf
  aggregation : Option AggregationConfig
  filters : List String
  trackTotal : Bool
deriving DecidableEq, Repr

/-!
## MetricFamily (metric.go)
-/

/-- MetricFamily: the metric config plus the constant labels fixed at
construction time. -/
structure MetricFamily where
  config : MetricConfig
  constLabels : List DtoLabelPair
deriving DecidableEq, Repr

/-- `NewMetricFamily`: copy the incoming constant labels, append the static
labels from the config and sort the result.  (Go iterates the StaticLabels
map in unspecified order; the map is passed here as a list of entries.) -/
def NewMetricFamily (mc : MetricConfig) (constLabels : List DtoLabelPair)
    (staticLabels : List (String × String)) : MetricFamily :=
  { config := mc
    constLabels :=
      sortLabelPairs
        (constLabels ++ staticLabels.map fun kv => { name := kv.1, value := kv.2 }) }

/-- `NewMetric(desc, value, labelValues...)`: a constMetric whose label pairs
are `makeLabelPairs(desc, labelValues)`. -/
def NewMetric (mf : MetricFamily) (value : ℚ) (labelValues : List labelPair) : MetricS :=
  .constMetric mf.config.name value (makeLabelPairs mf.constLabels labelValues)

/-- `MetricFamily.calculateValue`: Percentage scales by 100 over the total,
Absolute passes the datum's raw value through. -/
def MetricFamily.calculateValue (mf : MetricFamily) (data : metricData) (total : ℚ) : ℚ :=
  match mf.config.valueType with
  | .percentage => data.value * 100 / total
  | .absolute => data.value

/-- `MetricFamily.supported`: a label pair passes if key and value are
non-empty; when the family has an aggregation with filters and the
aggregation's name equals the pair's key, the pair's value must in addition
be one of the filter values. -/
def MetricFamily.supported (mf : MetricFamily) (pair : labelPair) : Bool :=
  let valid := pair.key ≠ "" && pair.value ≠ ""
  let hasFilters := mf.config.aggregation.isSome && !mf.config.filters.isEmpty
  let aggName := (mf.config.aggregation.map AggregationConfig.name).getD ""
  if valid && hasFilters && (aggName == pair.key) then
    mf.config.filters.contains pair.value
  else
    valid

/-- The per-datum body of the `MetricFamily.Collect` loop: gather the
datum's label if it is supported, then emit unless the datum was labeled
and its label was dropped. -/
def MetricFamily.collectDatum (mf : MetricFamily) (total : ℚ) (d : metricData) :
    List MetricS :=
  let labels : List labelPair :=
    match d.labelPair with
    | some pair => if d.hasLabels && mf.supported pair then [pair] else []
    | none => []
  if !d.hasLabels || labels.length > 0 then
    [NewMetric mf (mf.calculateValue d total) labels]
  else
    []

/-- `MetricFamily.Collect`: emit one metric per surviving datum, then, when
the family tracks totals, one unlabeled metric carrying the total. -/
def MetricFamily.Collect (mf : MetricFamily) (data : List metricData) (total : ℚ) :
    List MetricS :=
  (data.flatMap (mf.collectDatum total)) ++
    (if mf.config.trackTotal then [NewMetric mf total []] else [])

/-!
## Query (query.go)

The backend call `q.run(ctx, client)` is modelled by its outcome: either a
transport/response error or the decoded JSON body, which the code reads as
`hits.total.value` plus the named aggregations with their bucket arrays.
The cancellation context is modelled by `ctx.Err()`: `none` for a live
context, `some cause` for one already cancelled or expired.
-/

/-- One named aggregation of the response, with its `buckets` array. -/
structure ESAggregation where
  name : String
  buckets : List TermsBucket
deriving DecidableEq, Repr

/-- The response fields read by `Query.Collect`: `hits.total.value` and the
`aggregations` map (iterated here in list order). -/
structure ESResponse where
  total : ℚ
  aggregations : List ESAggregation
deriving DecidableEq, Repr

/-- config.AggregationConfig.Type: `AGGREGATION_TYPE_PERCENT`,
`AGGREGATION_TYPE_ABSOLUTE`, or any other configured value (the switch's
`default` arm). -/
inductive QueryAggregationType where
  | percent
  | absolute
  | other (s : String)
deriving DecidableEq, Repr

/-- `Query.calculateMetricValue`.  In Go, `var result float64` starts at 0
and the `case config.AGGREGATION_TYPE_ABSOLUTE:` body is empty and does not
fall through to `default`, so the absolute branch returns 0; only the
remaining kinds reach `default: result = value`. -/
def Query.calculateMetricValue (aggType : QueryAggregationType) (total value : ℚ) : ℚ :=
  match aggType with
  | .percent => value * 100 / total
  | .absolute => 0
  | .other _ => value

/-- resultMetric from query.go: an embedded (zero-valued when absent)
labelPair plus the computed value. -/
structure resultMetric where
  labelPair : labelPair
  value : ℚ
deriving DecidableEq, Repr

/-- Outcome of one `Query.Collect` call: the metrics sent on the channel,
whether the backend call `q.run` was attempted, and how many metric
families were invoked. -/
structure QueryCollectResult where
  emitted : List MetricS
  backendCalled : Bool
  familiesInvoked : ℕ
deriving Repr

/-- `Query.Collect`: bail out with one invalidMetric if the context is
already cancelled; run the query, bailing out with one invalidMetric on
error; otherwise seed the result metrics with the unlabeled total, append
one labeled metric per bucket of every aggregation (value put through
`calculateMetricValue`), and hand the accumulated metrics to every metric
family.  Each family's Collect is passed in as the function it applies to
the accumulated metrics. -/
def Query.Collect (ctxErr : Option String) (runResult : Except String ESResponse)
    (aggType : QueryAggregationType)
    (families : List (List resultMetric → List MetricS)) : QueryCollectResult :=
  match ctxErr with
  | some cause => { emitted := [.invalidMetric cause], backendCalled := false, familiesInvoked := 0 }
  | none =>
    match runResult with
    | .error e => { emitted := [.invalidMetric e], backendCalled := true, familiesInvoked := 0 }
    | .ok resp =>
      let base : List resultMetric := [{ labelPair := { key := "", value := "" }, value := resp.total }]
      let metrics := base ++ resp.aggregations.flatMap fun agg =>
        agg.buckets.map fun data =>
          { labelPair := { key := agg.name, value := data.key }
            value := Query.calculateMetricValue aggType resp.total data.doc_count }
      { emitted := (families.map fun mfCollect => mfCollect metrics).flatten
        backendCalled := true
        familiesInvoked := families.length }

/-!
## Collector / CachingCollector (collector source file)

The single-capacity semaphore channel makes the collector's cache a
sequentially accessed single slot: each Collect call acquires the slot,
refreshes or serves, and releases it.  That acquire/refresh-or-serve/release
cycle is modelled as a state transition; wall-clock instants are integers
(nanoseconds), `time.Time{}` is instant 0, and the wrapped collector's
output is a function of the collection instant. -/

/-- The cache slot of a cachingCollector: the timestamp handed through the
semaphore channel plus the cached metrics. -/
structure CacheState where
  cacheTime : ℤ
  cache : List MetricS
deriving DecidableEq, Repr

/-- The state installed by `newCachingCollector`: zero timestamp, no cached
metrics. -/
def newCachingCollectorState : CacheState :=
  { cacheTime := 0, cache := [] }

/-- Outcome of one `cachingCollector.Collect` call: the metrics forwarded to
the caller, the cache slot as released, and whether the wrapped collector's
backend-touching Collect ran. -/
structure CachingCollectResult where
  emitted : List MetricS
  state : CacheState
  rawInvoked : Bool
deriving Repr

/-- `cachingCollector.Collect`: bail out with one invalidMetric if the
context is already cancelled (cache untouched); otherwise compare the cache
age `collTime - cacheTime` with minInterval.  Stale (age strictly greater):
run the wrapped collector, cache and forward its metrics, and release the
slot with the new timestamp.  Fresh: forward the cached metrics and release
the slot unchanged. -/
def cachingCollect (minInterval : ℤ) (rawCollect : ℤ → List MetricS)
    (ctxErr : Option String) (collTime : ℤ) (s : CacheState) : CachingCollectResult :=
  match ctxErr with
  | some cause => { emitted := [.invalidMetric cause], state := s, rawInvoked := false }
  | none =>
    if collTime - s.cacheTime > minInterval then
      let fresh := rawCollect collTime
      { emitted := fresh, state := { cacheTime := collTime, cache := fresh }, rawInvoked := true }
    else
      { emitted := s.cache, state := s, rawInvoked := false }

/-!
## Target (target source file)
-/

def upMetricName : String := "up"

def scrapeDurationName : String := "scrape_duration_seconds"

/-- `boolToFloat64` from the target file. -/
def boolToFloat64 (value : Bool) : ℚ :=
  if value then 1 else 0

/-- A synthetic metric emitted by the target through
`NewMetric(t.upDesc, v)` or `NewMetric(t.scrapeDurationDesc, v)`: no
per-sample label values, so its label pairs are
`makeLabelPairs constLabels []`. -/
def targetSyntheticMetric (descName : String) (constLabels : List DtoLabelPair)
    (value : ℚ) : MetricS :=
  .constMetric descName value (makeLabelPairs constLabels [])

/-- `target.Collect`: on a failed health probe, send one invalidMetric and
mark the target down; in multi-target mode (non-empty name) send the up
metric right after the probe; run the collectors only when the target is
up; in multi-target mode send the scrape-duration metric after the
collector phase.  `probeErr` is the outcome of `t.ensureUp(ctx)`,
`collectorOut` the metrics the collectors would send, `elapsed` the scrape
duration in seconds. -/
def targetCollect (name : String) (constLabels : List DtoLabelPair)
    (probeErr : Option String) (collectorOut : List MetricS) (elapsed : ℚ) :
    List MetricS :=
  let targetUp := probeErr.isNone
  (match probeErr with
    | some cause => [MetricS.invalidMetric cause]
    | none => []) ++
  (if name ≠ "" then [targetSyntheticMetric upMetricName constLabels (boolToFloat64 targetUp)] else []) ++
  (if targetUp then collectorOut else []) ++
  (if name ≠ "" then [targetSyntheticMetric scrapeDurationName constLabels elapsed] else [])

/-!
## Claims
-/

/-- Claim C1: the claim says the Absolute transform passes the raw value
through and Percentage computes value * 100 / total.  The MetricFamily
transform (metric.go) does exactly that, but `Query.calculateMetricValue`
(query.go) has an empty `case AGGREGATION_TYPE_ABSOLUTE:` body that does
not fall through, so under the Absolute transform it emits 0 instead of the
raw value: at value 50, total 200 the Absolute branch yields 0 ≠ 50. -/
theorem calculateMetricValue_absolute_divergence :
    Query.calculateMetricValue QueryAggregationType.absolute 200 50 = 0 ∧
    (0 : ℚ) ≠ 50 ∧
    Query.calculateMetricValue QueryAggregationType.percent 200 50 = 25 ∧
    MetricFamily.calculateValue
      { config := { name := "m", valueType := .absolute, aggregation := none,
                    filters := [], trackTotal := false }, constLabels := [] }
      { value := 50, labelPair := none } 200 = 50 ∧
    MetricFamily.calculateValue
      { config := { name := "m", valueType := .percentage, aggregation := none,
                    filters := [], trackTotal := false }, constLabels := [] }
      { value := 50, labelPair := none } 200 = 25 := by
  refine ⟨rfl, by norm_num, ?_, rfl, ?_⟩ <;>
    simp [Query.calculateMetricValue, MetricFamily.calculateValue] <;> norm_num

/-- Claim C2: the claim says every kind in {terms, stats, min, max, sum,
avg, cardinality} yields a non-nil handler (min/max/sum/avg/cardinality the
SingleValue variant) and any other kind an error.  In the code the switch
cases for max, min, sum and avg have empty bodies and do not fall through,
so `NewForType` returns a nil handler and a nil error for those four kinds;
only terms, stats and cardinality get handlers, and unknown kinds do get
the not-implemented error. -/
theorem newForType_nil_handler_for_min_max_sum_avg :
    NewForType AggregationType.terms "agg" = .ok (some (.termsHandler "agg")) ∧
    NewForType AggregationType.stats "agg" = .ok (some .statsHandler) ∧
    NewForType AggregationType.cardinality "agg" = .ok (some .singleValueHandler) ∧
    NewForType AggregationType.min "agg" = .ok none ∧
    NewForType AggregationType.max "agg" = .ok none ∧
    NewForType AggregationType.sum "agg" = .ok none ∧
    NewForType AggregationType.avg "agg" = .ok none ∧
    NewForType (AggregationType.other "weighted_avg") "agg" =
      .error "handler for weighted_avg not implemented" :=
  ⟨rfl, rfl, rfl, rfl, rfl, rfl, rfl, rfl⟩

/-- Claim C4: on a terms result with N buckets, the terms handler applied to
an empty accumulator produces exactly N data in bucket order, the i-th with
the i-th bucket's doc_count as value and the label (handler name, bucket
key). -/
theorem termsHandler_one_datum_per_bucket (name : String) (buckets : List TermsBucket) :
    TermsAggregationHandler.Handle name buckets [] =
      buckets.map (fun b => newLabeledMetricData b.doc_count name b.key) ∧
    (TermsAggregationHandler.Handle name buckets []).length = buckets.length := by
  have h := termsHandle_eq_append_map name buckets []
  simp at h
  exact ⟨h, by rw [h]; simp⟩

/-- Claim C5: the stats handler appends exactly 5 data, in the fixed order
count, min, max, avg, sum, each valued by the corresponding result field
and labeled ("stat", field name). -/
theorem statsHandler_five_data_in_order (result : StatsResult) (acc : List metricData) :
    StatsAggregationHandler.Handle result acc =
      acc ++ [newLabeledMetricData result.count "stat" "count",
              newLabeledMetricData result.min "stat" "min",
              newLabeledMetricData result.max "stat" "max",
              newLabeledMetricData result.avg "stat" "avg",
              newLabeledMetricData result.sum "stat" "sum"] ∧
    (StatsAggregationHandler.Handle result acc).length = acc.length + 5 := by
  constructor
  · simp [StatsAggregationHandler.Handle]
  · simp [StatsAggregationHandler.Handle]

/-- Claim C8: when the context is already cancelled or expired,
`Query.Collect` emits exactly one invalid sample wrapping the cancellation
cause, makes no backend call and invokes no metric family, whatever the
backend would have answered. -/
theorem queryCollect_cancelled_context (cause : String)
    (runResult : Except String ESResponse) (aggType : QueryAggregationType)
    (families : List (List resultMetric → List MetricS)) :
    Query.Collect (some cause) runResult aggType families =
      { emitted := [.invalidMetric cause], backendCalled := false, familiesInvoked := 0 } :=
  rfl

/-- Claim C9: in multi-target mode (non-empty target name), a failed health
probe makes `target.Collect` emit the invalid sample for the probe error,
exactly one up metric with value 0, no collector-derived samples at all,
and still the scrape-duration metric after the (empty) collector phase. -/
theorem targetCollect_probe_failure_multi_target (name cause : String)
    (constLabels : List DtoLabelPair) (collectorOut : List MetricS) (elapsed : ℚ)
    (h : name ≠ "") :
    targetCollect name constLabels (some cause) collectorOut elapsed =
      [MetricS.invalidMetric cause,
       targetSyntheticMetric upMetricName constLabels 0,
       targetSyntheticMetric scrapeDurationName constLabels elapsed] := by
  simp [targetCollect, h, boolToFloat64]

/-- Witness for C9 at a concrete multi-target scrape. -/
theorem targetCollect_probe_failure_multi_target_witness :
    targetCollect "es1" [] (some "connection refused")
        [MetricS.constMetric "m" 1 []] (7 / 2) =
      [MetricS.invalidMetric "connection refused",
       targetSyntheticMetric upMetricName [] 0,
       targetSyntheticMetric scrapeDurationName [] (7 / 2)] :=
  targetCollect_probe_failure_multi_target "es1" "connection refused" []
    [MetricS.constMetric "m" 1 []] (7 / 2) (by decide)

/-- Claim C10: with an empty target name (single-target mode),
`target.Collect` emits no synthetic up or scrape-duration metric on either
probe path: a failed probe yields only the invalid sample, a successful one
only the collector-derived output. -/
theorem targetCollect_single_target_no_synthetic (constLabels : List DtoLabelPair)
    (probeErr : Option String) (collectorOut : List MetricS) (elapsed : ℚ) :
    targetCollect "" constLabels probeErr collectorOut elapsed =
      (match probeErr with
        | some cause => [MetricS.invalidMetric cause]
        | none => collectorOut) := by
  cases probeErr <;> simp [targetCollect]

/-- Claim C3: after a call at time t that refreshed the cache, a second
call at time t2 with t2 - t not exceeding minInterval does not run the
wrapped collector and forwards exactly the metrics the first call emitted,
leaving the cache slot untouched; the refreshing call (any call whose cache
age exceeds minInterval, the first call included, since the initial state
carries the zero timestamp) runs the wrapped collector and installs the new
timestamp and buffer. -/
theorem cachingCollector_fresh_cache_not_reinvoked (minInterval : ℤ)
    (rawCollect : ℤ → List MetricS) (s : CacheState) (t t2 : ℤ)
    (h1 : t - s.cacheTime > minInterval) (h2 : t2 - t ≤ minInterval) :
    cachingCollect minInterval rawCollect none t s =
      { emitted := rawCollect t
        state := { cacheTime := t, cache := rawCollect t }
        rawInvoked := true } ∧
    (cachingCollect minInterval rawCollect none t2
        (cachingCollect minInterval rawCollect none t s).state).rawInvoked = false ∧
    (cachingCollect minInterval rawCollect none t2
        (cachingCollect minInterval rawCollect none t s).state).emitted =
      (cachingCollect minInterval rawCollect none t s).emitted ∧
    (cachingCollect minInterval rawCollect none t2
        (cachingCollect minInterval rawCollect none t s).state).state =
      (cachingCollect minInterval rawCollect none t s).state := by
  have hfirst : cachingCollect minInterval rawCollect none t s =
      { emitted := rawCollect t
        state := { cacheTime := t, cache := rawCollect t }
        rawInvoked := true } := by
    simp [cachingCollect, h1]
  have hcond : ¬ (t2 - t > minInterval) := not_lt.mpr h2
  refine ⟨hfirst, ?_, ?_, ?_⟩ <;> rw [hfirst] <;> simp [cachingCollect, hcond]

/-- Witness for C3: minInterval 10, first call at instant 100 from the
initial state, second call at instant 105. -/
theorem cachingCollector_fresh_cache_not_reinvoked_witness :
    cachingCollect 10 (fun _ => [MetricS.constMetric "m" 1 []]) none 100
        newCachingCollectorState =
      { emitted := [MetricS.constMetric "m" 1 []]
        state := { cacheTime := 100, cache := [MetricS.constMetric "m" 1 []] }
        rawInvoked := true } ∧
    (cachingCollect 10 (fun _ => [MetricS.constMetric "m" 1 []]) none 105
        (cachingCollect 10 (fun _ => [MetricS.constMetric "m" 1 []]) none 100
          newCachingCollectorState).state).rawInvoked = false ∧
    (cachingCollect 10 (fun _ => [MetricS.constMetric "m" 1 []]) none 105
        (cachingCollect 10 (fun _ => [MetricS.constMetric "m" 1 []]) none 100
          newCachingCollectorState).state).emitted =
      (cachingCollect 10 (fun _ => [MetricS.constMetric "m" 1 []]) none 100
        newCachingCollectorState).emitted ∧
    (cachingCollect 10 (fun _ => [MetricS.constMetric "m" 1 []]) none 105
        (cachingCollect 10 (fun _ => [MetricS.constMetric "m" 1 []]) none 100
          newCachingCollectorState).state).state =
      (cachingCollect 10 (fun _ => [MetricS.constMetric "m" 1 []]) none 100
        newCachingCollectorState).state :=
  cachingCollector_fresh_cache_not_reinvoked 10 (fun _ => [MetricS.constMetric "m" 1 []])
    newCachingCollectorState 100 105 (by decide) (by decide)

/-- The claim's wording of label support, for comparison with the code's
`MetricFamily.supported`: key and value non-empty, and whenever the family
declares a non-empty filter list for an aggregation whose name equals the
pair's key, the pair's value is one of the filter values. -/
def labelSupportedSpec (mf : MetricFamily) (pair : labelPair) : Prop :=
  pair.key ≠ "" ∧ pair.value ≠ "" ∧
    ∀ agg, mf.config.aggregation = some agg → mf.config.filters ≠ [] →
      agg.name = pair.key → pair.value ∈ mf.config.filters

/-- Claim C6: a labeled datum put through `MetricFamily.Collect` yields a
sample exactly when the code's `supported` test passes (an unsupported
labeled datum yields nothing and no error), and the code's test is
equivalent to the claim's characterization of a supported label. -/
theorem metricFamily_labeled_iff_supported (mf : MetricFamily)
    (v total : ℚ) (pair : labelPair) :
    MetricFamily.Collect mf [{ value := v, labelPair := some pair }] total =
      (if mf.supported pair then
        [NewMetric mf
          (mf.calculateValue { value := v, labelPair := some pair } total) [pair]]
      else []) ++
      (if mf.config.trackTotal then [NewMetric mf total []] else []) ∧
    (mf.supported pair = true ↔ labelSupportedSpec mf pair) := by
  constructor
  · by_cases hs : mf.supported pair = true
    · simp [MetricFamily.Collect, MetricFamily.collectDatum, metricData.hasLabels, hs]
    · simp [MetricFamily.Collect, MetricFamily.collectDatum, metricData.hasLabels,
        Bool.not_eq_true _ ▸ hs, hs]
  · cases hagg : mf.config.aggregation with
    | none =>
        simp [MetricFamily.supported, labelSupportedSpec, hagg]
    | some agg =>
        by_cases hf : mf.config.filters = []
        · simp [MetricFamily.supported, labelSupportedSpec, hagg, hf]
        · by_cases hname : agg.name = pair.key
          · by_cases hkey : pair.key = ""
            · simp [MetricFamily.supported, labelSupportedSpec, hagg, hf, hname, hkey]
            · by_cases hval : pair.value = ""
              · simp [MetricFamily.supported, labelSupportedSpec, hagg, hf, hname, hkey, hval]
              · simp [MetricFamily.supported, labelSupportedSpec, hagg, hf, hname, hkey, hval]
          · simp [MetricFamily.supported, labelSupportedSpec, hagg, hf, hname]

/-- The strict version of the label-pair order, used to show that a sorted
label sequence with pairwise distinct keys is unique. -/
def pairLT (a b : DtoLabelPair) : Prop :=
  a.name < b.name

instance : IsAntisymm DtoLabelPair pairLT :=
  ⟨fun _ _ hab hba => absurd (lt_trans hab hba) (lt_irrefl _)⟩

/-- A list of label pairs that is sorted by key and has pairwise distinct
keys is sorted by the strict key order. -/
theorem sorted_pairLT_of_sorted_pairLE {l : List DtoLabelPair}
    (hs : List.Sorted pairLE l) (hn : (l.map DtoLabelPair.name).Nodup) :
    List.Sorted pairLT l := by
  have hne : l.Pairwise fun a b => a.name ≠ b.name := List.pairwise_map.mp hn
  exact (hs.and hne).imp fun h => lt_of_le_of_ne h.1 h.2

/-- Two sorted label sequences that are rearrangements of each other with
pairwise distinct keys are equal. -/
theorem sorted_labelPairs_unique {l1 l2 : List DtoLabelPair}
    (hp : List.Perm l1 l2) (h1 : List.Sorted pairLE l1) (h2 : List.Sorted pairLE l2)
    (hn : (l1.map DtoLabelPair.name).Nodup) : l1 = l2 :=
  List.eq_of_perm_of_sorted hp
    (sorted_pairLT_of_sorted_pairLE h1 hn)
    (sorted_pairLT_of_sorted_pairLE h2 ((hp.map DtoLabelPair.name).nodup_iff.mp hn))

/-- Claim C7: with the descriptor's constant labels sorted by key (as every
construction site leaves them), `makeLabelPairs` always yields a sequence
sorted by label key, and two samples built from the same label set — the
per-sample labels given in any order — carry identical label-pair
sequences, provided the combined keys are pairwise distinct. -/
theorem makeLabelPairs_sorted_and_order_independent
    (constLabels : List DtoLabelPair) (hconst : List.Sorted pairLE constLabels)
    (lv1 lv2 : List labelPair) (hperm : List.Perm lv1 lv2)
    (hnodup : (lv1.map labelPair.key ++ constLabels.map DtoLabelPair.name).Nodup) :
    List.Sorted pairLE (makeLabelPairs constLabels lv1) ∧
    makeLabelPairs constLabels lv1 = makeLabelPairs constLabels lv2 := by
  cases hlv : lv1 with
  | nil =>
      have hlv2 : lv2 = [] := List.Perm.eq_nil (hlv ▸ hperm).symm
      subst hlv2
      constructor
      · by_cases hc : constLabels.length = 0
        · simp [makeLabelPairs, hc, List.length_eq_zero.mp hc]
        · simpa [makeLabelPairs, hc] using hconst
      · rfl
  | cons a tl =>
      subst hlv
      have hlv2 : lv2 ≠ [] := by
        intro h
        subst h
        exact absurd hperm.length_eq (by simp)
      have hmk1 : makeLabelPairs constLabels (a :: tl) =
          sortLabelPairs (((a :: tl).map fun l => { name := l.key, value := l.value }) ++ constLabels) := by
        simp [makeLabelPairs]
      have hmk2 : makeLabelPairs constLabels lv2 =
          sortLabelPairs ((lv2.map fun l => { name := l.key, value := l.value }) ++ constLabels) := by
        rw [makeLabelPairs]
        rw [if_neg (by simp [hlv2]), if_neg (by simp [hlv2])]
      have hsort1 : List.Sorted pairLE (makeLabelPairs constLabels (a :: tl)) := by
        rw [hmk1]
        exact List.sorted_insertionSort pairLE _
      refine ⟨hsort1, ?_⟩
      have hsort2 : List.Sorted pairLE (makeLabelPairs constLabels lv2) := by
        rw [hmk2]
        exact List.sorted_insertionSort pairLE _
      have hpermMerged :
          List.Perm (((a :: tl).map fun l => { name := l.key, value := l.value }) ++ constLabels)
            ((lv2.map fun l => { name := l.key, value := l.value }) ++ constLabels) :=
        (hperm.map _).append_right constLabels
      have hpermSort : List.Perm (makeLabelPairs constLabels (a :: tl))
          (makeLabelPairs constLabels lv2) := by
        rw [hmk1, hmk2]
        exact ((List.perm_insertionSort pairLE _).trans hpermMerged).trans
          (List.perm_insertionSort pairLE _).symm
      have hnames :
          ((((a :: tl).map fun l => ({ name := l.key, value := l.value } : DtoLabelPair)) ++
              constLabels).map DtoLabelPair.name).Nodup := by
        simpa [List.map_map, Function.comp] using hnodup
      have hnodupSort : ((makeLabelPairs constLabels (a :: tl)).map DtoLabelPair.name).Nodup := by
        rw [hmk1]
        exact ((List.perm_insertionSort pairLE _).map DtoLabelPair.name).nodup_iff.mpr hnames
      exact sorted_labelPairs_unique hpermSort hsort1 hsort2 hnodupSort

/-- Witness for C7: one constant label and two per-sample labels supplied
in both orders. -/
theorem makeLabelPairs_sorted_and_order_independent_witness :
    List.Sorted pairLE
      (makeLabelPairs [{ name := "job", value := "j" }]
        [{ key := "code", value := "200" }, { key := "agg", value := "a" }]) ∧
    makeLabelPairs [{ name := "job", value := "j" }]
        [{ key := "code", value := "200" }, { key := "agg", value := "a" }] =
      makeLabelPairs [{ name := "job", value := "j" }]
        [{ key := "agg", value := "a" }, { key := "code", value := "200" }] :=
  makeLabelPairs_sorted_and_order_independent
    [{ name := "job", value := "j" }] (by decide)
    [{ key := "code", value := "200" }, { key := "agg", value := "a" }]
    [{ key := "agg", value := "a" }, { key := "code", value := "200" }]
    (by decide) (by decide)

end ElasticExporter
